import Mathlib

/-!
# Livelib.ru metadata source plugin — shallow embedding

This file embeds the extraction-and-matching core of the Livelib.ru
Calibre metadata source plugin (`src/__init__.py`) and proves properties
of it.  Pure Python string operations are modelled over `List Char`;
machine floats that only ever undergo exact arithmetic (a single
multiplication by 2) are modelled as `ℚ`; fallible steps return `Option`
or a dedicated outcome type.

Python's `str.strip`/`str.lower` act on all Unicode whitespace/cased
letters; the pages and queries manipulated here only exercise ASCII
whitespace and ASCII case folding (Cyrillic book titles are never
case-folded on a path a theorem depends on), so the ASCII versions are
used as the model.
-/

namespace Livelib

/-- ASCII whitespace, as stripped by Python's `str.strip()`. -/
def isPySpace (c : Char) : Bool :=
  c = ' ' || c = '\t' || c = '\n' || c = '\r' || c = '\x0b' || c = '\x0c'

/-- Strip whitespace from both ends of a character list (`str.strip()`). -/
def stripChars (l : List Char) : List Char :=
  ((l.dropWhile isPySpace).reverse.dropWhile isPySpace).reverse

/-- Python `str.strip()` on strings. -/
def pyStrip (s : String) : String :=
  String.mk (stripChars s.toList)

/-- ASCII lower-casing of one character (`str.lower()`). -/
def lowerChar (c : Char) : Char :=
  if 'A' ≤ c ∧ c ≤ 'Z' then Char.ofNat (c.toNat + 32) else c

/-- Python `str.lower()` on strings (ASCII model). -/
def pyLower (s : String) : String :=
  String.mk (s.toList.map lowerChar)

/-- Contiguous-substring test on character lists: Python's `needle in hay`. -/
def hasSubChars : List Char → List Char → Bool
  | n, [] => n.isEmpty
  | n, c :: t => n.isPrefixOf (c :: t) || hasSubChars n t

/-- Python's `needle in hay` on strings. -/
def hasSub (needle hay : String) : Bool :=
  hasSubChars needle.toList hay.toList

/-- Decimal value of a digit list. -/
def digitsVal (ds : List Char) : Nat :=
  ds.foldl (fun acc c => acc * 10 + (c.toNat - 48)) 0

/-- The plugin's fixed base URL (`LivelibMetadataSourcePlugin.BASE_URL`). -/
def BASE_URL : String := "https://www.livelib.ru"

/-- Model of `get_book_url`: return `<base>/book/<id>` for a truthy `livelib`
identifier, `None` otherwise.  The `identifiers` dict is modelled by its
`'livelib'` entry. -/
def get_book_url (livelib_id : Option String) : Option String :=
  match livelib_id with
  | some i => if i = "" then none else some (BASE_URL ++ "/book/" ++ i)
  | none => none

/-- Leftmost match of the regex `/book/(\d+)`: scan for an occurrence of
the literal `/book/` followed by at least one digit, and return the
maximal digit run after it (`re.search` semantics). -/
def idFromUrlChars : List Char → Option (List Char)
  | [] => none
  | c :: rest =>
    if "/book/".toList.isPrefixOf (c :: rest) then
      let ds := ((c :: rest).drop 6).takeWhile Char.isDigit
      if ds = [] then idFromUrlChars rest else some ds
    else idFromUrlChars rest

/-- Model of `id_from_url`: extract the numeric livelib id from a URL via
`re.search(r'/book/(\d+)', url)`. -/
def id_from_url (url : String) : Option String :=
  (idFromUrlChars url.toList).map String.mk

/-! ## Structured data (JSON-LD) model

`_extract_json_ld` returns the first `application/ld+json` dict whose
`@type` is `"Book"`, or `None`.  `parse_book_page` then reads a fixed
set of keys from it, dispatching on the runtime shape of each value;
each field below is an inductive over exactly the shapes the code
distinguishes.  `absent` covers a missing key as well as a falsy value
(Python's `if x:` guards), and string values are the Python string
values. -/

/-- One element of a JSON-LD `author` list: a dict (with the string of
its `name` key, `""` when missing/falsy) or any non-dict value. -/
inductive AuthorItem where
  | dict (name : String)
  | other
deriving DecidableEq, Repr

/-- The JSON-LD `author` value: absent/falsy, a dict, a (non-empty)
list, or some other truthy value. -/
inductive AuthorField where
  | absent
  | dict (name : String)
  | list (items : List AuthorItem)
  | other
deriving DecidableEq, Repr

/-- The JSON-LD `publisher` value. -/
inductive PublisherField where
  | absent
  | dict (name : Option String)
  | nonDict
deriving DecidableEq, Repr

/-- The JSON-LD `genre` value: absent/falsy, a string, a list of
strings, or some other truthy value. -/
inductive GenreField where
  | absent
  | str (s : String)
  | list (gs : List String)
  | other
deriving DecidableEq, Repr

/-- The `ratingValue` inside `aggregateRating`: a numeric value
(`float(...)` succeeds; exact, so modelled as `ℚ`) or a value on which
`float(...)` raises `ValueError`/`TypeError`. -/
inductive RatingValue where
  | num (r : ℚ)
  | bad
deriving DecidableEq, Repr

/-- The JSON-LD `aggregateRating` value: absent/falsy, a dict (whose
`ratingValue` may be missing — then `float(0)` is taken), or a truthy
non-dict. -/
inductive RatingField where
  | absent
  | dict (v : Option RatingValue)
  | nonDict
deriving DecidableEq, Repr

/-- The JSON-LD `Book` dict, restricted to the keys `parse_book_page`
reads.  `name` is `json_ld.get('name', '')` (so `""` for a missing
key); the `Option String` fields are `.get(...)` results. -/
structure StructuredData where
  name : String
  author : AuthorField
  isbn : Option String
  publisher : PublisherField
  genre : GenreField
  description : Option String
  aggregateRating : RatingField
  image : Option String
deriving DecidableEq, Repr

/-- Authors contributed by the JSON-LD `author` field (the
`if author_data:` block): a dict contributes its truthy `name`, a list
contributes each dict element's truthy `name`, anything else nothing. -/
def structAuthors : AuthorField → List String
  | .absent => []
  | .dict n => if n = "" then [] else [n]
  | .list items => items.filterMap fun it =>
      match it with
      | .dict n => if n = "" then none else some n
      | .other => none
  | .other => []

/-- Genres contributed by the JSON-LD `genre` field (the `if genre:`
block; a falsy `""`/`[]` contributes nothing). -/
def structGenres : GenreField → List String
  | .absent => []
  | .str s => if s = "" then [] else [s]
  | .list gs => gs
  | .other => []

/-- The `rating` variable after the `aggregateRating` block: numeric
value of a dict's `ratingValue` (0 when the key is missing), `None`
otherwise (including the caught `float` failure). -/
def structRating : RatingField → Option ℚ
  | .absent => none
  | .dict none => some 0
  | .dict (some (.num r)) => some r
  | .dict (some .bad) => none
  | .nonDict => none

/-! ## Page markup model

A detail page, as seen through the fixed XPath queries of
`parse_book_page`: each field is the node list the corresponding query
returns, in document order. -/

/-- One link matched by
`//a[contains(@href, "/series/") or contains(@href, "/pubseries/")]`:
its `text_content()` and its `tail` (the text immediately following the
element, `none` when there is no tail node). -/
structure SeriesLink where
  text : String
  tail : Option String
deriving DecidableEq, Repr

/-- A parsed detail page: the JSON-LD block (if any) and the markup
node lists used by the fallbacks. -/
structure Page where
  jsonLd : Option StructuredData
  h1 : List String
  authorLinkTexts : List String
  seriesLinks : List SeriesLink
  genreLinkTexts : List String
  yearTexts : List String
deriving DecidableEq, Repr

/-- One step of the markup de-duplicating append loop
(`if x and x not in acc: acc.append(x)`). -/
def dedupAppend (acc : List String) (x : String) : List String :=
  if x ≠ "" ∧ x ∉ acc then acc ++ [x] else acc

/-- The `title` variable after the JSON-LD block: the structured `name`
when a JSON-LD block was found, else `""`. -/
def structTitleOf (p : Page) : String :=
  match p.jsonLd with
  | some j => j.name
  | none => ""

/-- The `authors` list after the JSON-LD block. -/
def structAuthorsOf (p : Page) : List String :=
  match p.jsonLd with
  | some j => structAuthors j.author
  | none => []

/-- The `genres` list after the JSON-LD block. -/
def structGenresOf (p : Page) : List String :=
  match p.jsonLd with
  | some j => structGenres j.genre
  | none => []

/-- The resolved title: JSON-LD `name`, else the first `//h1/text()`
node stripped, else `""`. -/
def resolveTitle (p : Page) : String :=
  if structTitleOf p = "" then
    match p.h1 with
    | h :: _ => pyStrip h
    | [] => ""
  else structTitleOf p

/-- The markup author fallback: the first 3
`//a[contains(@href, "/author/")]/text()` nodes, stripped, de-duplicated
keeping first occurrences, empties dropped. -/
def markupAuthors (p : Page) : List String :=
  ((p.authorLinkTexts.take 3).map pyStrip).foldl dedupAppend []

/-- The resolved authors list: JSON-LD authors, else the markup
fallback. -/
def resolveAuthors (p : Page) : List String :=
  if structAuthorsOf p = [] then markupAuthors p else structAuthorsOf p

/-- The markup genre fallback: all `//a[contains(@href, "/genre/")]`
texts, stripped, de-duplicated keeping first occurrences, empties
dropped. -/
def markupGenres (p : Page) : List String :=
  (p.genreLinkTexts.map pyStrip).foldl dedupAppend []

/-- The resolved genre list: JSON-LD genres, else the markup
fallback. -/
def resolveGenres (p : Page) : List String :=
  if structGenresOf p = [] then markupGenres p else structGenresOf p

/-- Leftmost match of the regex `#(\d+)`: the decimal value of the
first digit run preceded by `#`. -/
def findHash : List Char → Option Nat
  | [] => none
  | '#' :: rest =>
    let ds := rest.takeWhile Char.isDigit
    if ds = [] then findHash rest else some (digitsVal ds)
  | _ :: rest => findHash rest

/-- The series loop: scan the series links in document order, stop at
the first one with non-empty stripped text; its text is the series name
and its tail (if truthy) is searched for `#(\d+)` to give the index. -/
def resolveSeries : List SeriesLink → Option String × Option Nat
  | [] => (none, none)
  | l :: rest =>
    let t := pyStrip l.text
    if t = "" then resolveSeries rest
    else
      (some t,
        match l.tail with
        | some s => if s = "" then none else findHash s.toList
        | none => none)

/-- Python `int(s)` on a stripped string: optional sign then a
non-empty digit run (digit-group underscores are not modelled; no year
text in scope contains them). -/
def pyInt (s : String) : Option Int :=
  match s.toList with
  | [] => none
  | '-' :: ds => if ds ≠ [] ∧ ds.all Char.isDigit then some (-(digitsVal ds : Int)) else none
  | '+' :: ds => if ds ≠ [] ∧ ds.all Char.isDigit then some ((digitsVal ds : Int)) else none
  | ds => if ds.all Char.isDigit then some ((digitsVal ds : Int)) else none

/-- Python `if x:` applied to an optional string: `""` and `None` are falsy. -/
def optTruthy : Option String → Option String
  | some s => if s = "" then none else some s
  | none => none

/-- The output metadata record (the fields `parse_book_page` sets on the
Calibre `Metadata` object; an unset field is `none`/`[]`).  `pub_year`
is the year handed to the host's date parser. -/
structure MetadataRecord where
  title : String
  authors : List String
  livelib_id : Option String
  isbn : Option String
  tags : List String
  series : Option String
  series_index : Option Nat
  publisher : Option String
  comments : Option String
  rating : Option ℚ
  pub_year : Option Int
deriving DecidableEq, Repr

/-- The extraction core of `parse_book_page` (src lines 100–263), after
the page has been fetched and parsed: resolve every field from JSON-LD
with markup fallbacks, then return `None` when title or authors are
empty, else the metadata record (each field set only when truthy, the
rating converted from the 0–5 to the 0–10 scale). -/
def parse_book_page (book_url : String) (p : Page) : Option MetadataRecord :=
  let title := resolveTitle p
  let authors := resolveAuthors p
  let isbn := p.jsonLd.bind (·.isbn)
  let publisher := match p.jsonLd with
    | some j => (match j.publisher with
        | .dict n => n
        | _ => none)
    | none => none
  let genres := resolveGenres p
  let sers := resolveSeries p.seriesLinks
  let description := p.jsonLd.bind (·.description)
  let rating := match p.jsonLd with
    | some j => structRating j.aggregateRating
    | none => none
  let pub_year := match p.yearTexts with
    | y :: _ => pyInt (pyStrip y)
    | [] => none
  let book_id := id_from_url book_url
  if resolveTitle p = "" ∨ resolveAuthors p = [] then none
  else some
    { title := title
      authors := authors
      livelib_id := book_id
      isbn := optTruthy isbn
      tags := genres
      series := sers.1
      series_index :=
        match sers.1, sers.2 with
        | some _, some n => if n = 0 then none else some n
        | _, _ => none
      publisher := optTruthy publisher
      comments := optTruthy description
      rating :=
        match rating with
        | some r => if r = 0 then none else some (2 * r)
        | none => none
      pub_year :=
        match pub_year with
        | some y => if y = 0 then none else some y
        | none => none }

/-! ## Matcher model

The candidate-selection section of `identify` (src lines 316–368),
which the design document names `selectBestCandidate`.  A search page is
the document-ordered list of `<a>` elements whose `href` contains
`/book/`, each with its `href`, its `text_content()` and the
`text_content()` of its structural parent (`none` when the element has
no parent). -/

/-- A candidate link on a search-results page. -/
structure Candidate where
  href : String
  text : String
  parentText : Option String
deriving DecidableEq, Repr

/-- Python `dict.fromkeys` de-duplication: keep first occurrences, preserving
order. -/
def dedupKeepFirst (l : List String) : List String :=
  l.foldl (fun acc x => if x ∉ acc then acc ++ [x] else acc) []

/-- The title-match test (src line 343): candidate text
(`text_content().strip().lower()`) contains the lowered title query or
vice versa. -/
def titleMatches (title_lower : String) (c : Candidate) : Bool :=
  let link_text := pyLower (pyStrip c.text)
  hasSub title_lower link_text || hasSub link_text title_lower

/-- The author gate (src lines 347–352): pass when there is no author
query, or when the parent's lowered `text_content()` contains it. -/
def authorOk (author_lower : String) (c : Candidate) : Bool :=
  author_lower = "" ||
    match c.parentText with
    | some pt => hasSub author_lower (pyLower pt)
    | none => false

/-- A candidate is accepted by the scan loop iff it title-matches and
passes the author gate. -/
def accepts (title_lower author_lower : String) (c : Candidate) : Bool :=
  titleMatches title_lower c && authorOk author_lower c

/-- Interpolating `href` into `f'//a[@href="{href}"]'` yields a
malformed XPath expression whenever `href` contains a double quote, and
`lxml` raises `XPathEvalError` out of the loop.  (A crafted quoted
`href` whose interpolation happens to parse as a different valid XPath
is not modelled; no theorem below is stated over such inputs.) -/
def hrefBreaksXPath (href : String) : Bool :=
  href.toList.contains '"'

/-- Outcome of the candidate scan loop. -/
inductive ScanOutcome where
  | aborted
  | raisedXPath
  | found (href : String)
  | exhausted
deriving DecidableEq, Repr

/-- The scan loop (src lines 331–358) over the de-duplicated hrefs:
check the abort flag, look up the first document element with that
exact href (skipping — `continue` — when the lookup is empty), and on a
title match accept only if the author gate passes, else keep
scanning. -/
def scanCandidates (cands : List Candidate) (title_lower author_lower : String)
    (abort : Bool) : List String → ScanOutcome
  | [] => .exhausted
  | href :: rest =>
    if abort then .aborted
    else if hrefBreaksXPath href then .raisedXPath
    else
      match cands.find? (fun c => c.href = href) with
      | none => scanCandidates cands title_lower author_lower abort rest
      | some c =>
        if titleMatches title_lower c then
          if author_lower ≠ "" then
            match c.parentText with
            | some pt =>
              if hasSub author_lower (pyLower pt) then .found href
              else scanCandidates cands title_lower author_lower abort rest
            | none => scanCandidates cands title_lower author_lower abort rest
          else .found href
        else scanCandidates cands title_lower author_lower abort rest

/-- Result of candidate selection as seen by `identify`'s caller. -/
inductive MatchResult where
  | notFound
  | aborted
  | raisedXPath
  | url (u : String)
deriving DecidableEq, Repr

/-- Python `if not best_match.startswith('http')`: resolve a relative href
against the base URL. -/
def absolutize (href : String) : String :=
  if "http".toList.isPrefixOf href.toList then href else BASE_URL ++ href

/-- The candidate-selection section of `identify` (src lines 316–368):
de-duplicate the hrefs, return `notFound` on an empty candidate set,
scan the first 20, and fall back to the first href when the scan
accepts nothing (`if not best_match` also treats a found empty href as
falsy). -/
def selectBestCandidate (cands : List Candidate) (title_lower author_lower : String)
    (abort : Bool) : MatchResult :=
  let book_links := dedupKeepFirst (cands.map (·.href))
  match book_links with
  | [] => .notFound
  | first :: _ =>
    match scanCandidates cands title_lower author_lower abort (book_links.take 20) with
    | .aborted => .aborted
    | .raisedXPath => .raisedXPath
    | .found h => if h = "" then .url (absolutize first) else .url (absolutize h)
    | .exhausted => .url (absolutize first)

/-! ## Cover download model

`download_cover` (src lines 377–419), with its collaborators
abstracted: `cache` is `cached_identifier_to_cover_url`;
`fetchJsonLd url` is the composite of `_fetch_page`, `html.fromstring`
and `_extract_json_ld` on the book page (`none` for any failure, all
swallowed); `fetchImage url` is the cover GET (`none` when it raises).
The `title`/`authors` arguments are accepted and never read, exactly as
in the source.  The result pairs the list of URLs for which a network
fetch was attempted, in order, with the emitted cover bytes (if any). -/

def download_cover (_title : Option String) (_authors : List String)
    (livelib_id0 : Option String)
    (cache : String → Option String)
    (fetchJsonLd : String → Option StructuredData)
    (fetchImage : String → Option (List Nat)) :
    List String × Option (List Nat) :=
  let livelib_id := match livelib_id0 with
    | some s => if s = "" then none else some s
    | none => none
  let cover_url0 : Option String := match livelib_id with
    | some i => cache ("livelib:" ++ i)
    | none => none
  let needRefetch := optTruthy cover_url0 = none ∧ livelib_id.isSome
  let book_url := BASE_URL ++ "/book/" ++ livelib_id.getD ""
  let fetches1 : List String := if needRefetch then [book_url] else []
  let cover_url : Option String :=
    if needRefetch then
      match fetchJsonLd book_url with
      | some j => j.image
      | none => cover_url0
    else cover_url0
  match optTruthy cover_url with
  | none => (fetches1, none)
  | some cu =>
    match fetchImage cu with
    | some bytes => (fetches1 ++ [cu], if bytes = [] then none else some bytes)
    | none => (fetches1 ++ [cu], none)

/-! ## Concrete fixtures

Concrete pages used to instantiate the theorems below; the values are
the worked scenarios of the design document. -/

/-- Scenario A structured data: `name` "Ангел пролетел", a single author
dict, `ratingValue` 4.2. -/
def sdA : StructuredData :=
  { name := "Ангел пролетел", author := .dict "Татьяна Устинова", isbn := none,
    publisher := .absent, genre := .absent, description := none,
    aggregateRating := .dict (some (.num (21/5))), image := none }

/-- Scenario A page: structured data only. -/
def pageA : Page :=
  { jsonLd := some sdA, h1 := [], authorLinkTexts := [], seriesLinks := [],
    genreLinkTexts := [], yearTexts := [] }

/-- Scenario A with a source rating of exactly 0 instead of 4.2. -/
def sdZero : StructuredData :=
  { name := "Ангел пролетел", author := .dict "Татьяна Устинова", isbn := none,
    publisher := .absent, genre := .absent, description := none,
    aggregateRating := .dict (some (.num 0)), image := none }

/-- Page carrying `sdZero`. -/
def pageZero : Page :=
  { jsonLd := some sdZero, h1 := [], authorLinkTexts := [], seriesLinks := [],
    genreLinkTexts := [], yearTexts := [] }

/-- The record extracted from `pageZero` at url `/book/1`: note the
rating is absent, not 0. -/
def recZero : MetadataRecord :=
  { title := "Ангел пролетел", authors := ["Татьяна Устинова"],
    livelib_id := some "1", isbn := none, tags := [], series := none,
    series_index := none, publisher := none, comments := none,
    rating := none, pub_year := none }

/-- Scenario B page: no structured block, heading plus three author
links (the third from a sidebar). -/
def pageB : Page :=
  { jsonLd := none, h1 := ["Война и мир"],
    authorLinkTexts := ["Лев Толстой", "Лев Толстой", "А. Иванов"],
    seriesLinks := [], genreLinkTexts := [], yearTexts := [] }

/-- A page exercising every markup fallback at once: no structured
block, a padded heading, one author link, one genre link. -/
def pageFall : Page :=
  { jsonLd := none, h1 := [" Война и мир "], authorLinkTexts := ["Лев Толстой"],
    seriesLinks := [], genreLinkTexts := ["Классика"], yearTexts := [] }

/-- A search candidate whose text title-matches but whose parent text
does not contain the author query. -/
def cexC1 : Candidate := ⟨"/book/1", "T", some "x"⟩

/-- A later search candidate that title-matches and whose parent text
does contain the author query. -/
def cexC2 : Candidate := ⟨"/book/2", "T", some "by A"⟩

/-- The two-candidate search page for the matcher tie-break. -/
def cexCands : List Candidate := [cexC1, cexC2]

/-- A search page containing a single book link whose href holds a
double quote. -/
def pageInject : List Candidate := [⟨"/book/1\"x", "t", none⟩]

/-! ## Helper lemmas -/

theorem toList_append (s t : String) : (s ++ t).toList = s.toList ++ t.toList :=
  String.data_append s t

theorem mk_toList (s : String) : String.mk s.toList = s := rfl

theorem dedupAppend_eq (acc : List String) (a : String) :
    dedupAppend acc a = if a ≠ "" ∧ a ∉ acc then acc ++ [a] else acc := rfl

theorem foldl_dedupAppend_mem (l acc : List String) (x : String) :
    x ∈ l.foldl dedupAppend acc ↔ x ∈ acc ∨ (x ∈ l ∧ x ≠ "") := by
  induction l generalizing acc with
  | nil => simp
  | cons a l ih =>
    rw [List.foldl_cons, ih, dedupAppend_eq]
    by_cases hg : a ≠ "" ∧ a ∉ acc
    · rw [if_pos hg]
      simp only [List.mem_append, List.mem_singleton, List.mem_cons]
      aesop
    · rw [if_neg hg]
      simp only [List.mem_cons]
      push_neg at hg
      rcases eq_or_ne a "" with rfl | ha
      · aesop
      · have hacc : a ∈ acc := hg ha
        aesop

theorem foldl_dedupAppend_nodup (l acc : List String) (h : acc.Nodup) :
    (l.foldl dedupAppend acc).Nodup := by
  induction l generalizing acc with
  | nil => exact h
  | cons a l ih =>
    rw [List.foldl_cons]
    apply ih
    rw [dedupAppend_eq]
    by_cases hg : a ≠ "" ∧ a ∉ acc
    · rw [if_pos hg]
      simp [List.nodup_append, h, hg.2]
    · rw [if_neg hg]; exact h

theorem foldl_dedupAppend_sublist (l acc : List String) :
    ∃ s, l.foldl dedupAppend acc = acc ++ s ∧ List.Sublist s l := by
  induction l generalizing acc with
  | nil => exact ⟨[], by simp, List.nil_sublist _⟩
  | cons a l ih =>
    rw [List.foldl_cons, dedupAppend_eq]
    by_cases hg : a ≠ "" ∧ a ∉ acc
    · rw [if_pos hg]
      obtain ⟨s, hs, hsub⟩ := ih (acc ++ [a])
      exact ⟨a :: s, by rw [hs]; simp, List.Sublist.cons₂ a hsub⟩
    · rw [if_neg hg]
      obtain ⟨s, hs, hsub⟩ := ih acc
      exact ⟨s, hs, List.Sublist.cons a hsub⟩

theorem foldl_keepFirst_sublist (l acc : List String) :
    ∃ s, l.foldl (fun acc x => if x ∉ acc then acc ++ [x] else acc) acc = acc ++ s ∧
      List.Sublist s l := by
  induction l generalizing acc with
  | nil => exact ⟨[], by simp, List.nil_sublist _⟩
  | cons a l ih =>
    rw [List.foldl_cons]
    by_cases hg : a ∉ acc
    · rw [if_pos hg]
      obtain ⟨s, hs, hsub⟩ := ih (acc ++ [a])
      exact ⟨a :: s, by rw [hs]; simp, List.Sublist.cons₂ a hsub⟩
    · rw [if_neg hg]
      obtain ⟨s, hs, hsub⟩ := ih acc
      exact ⟨s, hs, List.Sublist.cons a hsub⟩

theorem dedupKeepFirst_sublist (l : List String) :
    List.Sublist (dedupKeepFirst l) l := by
  obtain ⟨s, hs, hsub⟩ := foldl_keepFirst_sublist l []
  unfold dedupKeepFirst
  rw [hs, List.nil_append]
  exact hsub

theorem mem_of_mem_dedupKeepFirst (l : List String) (x : String)
    (h : x ∈ dedupKeepFirst l) : x ∈ l :=
  (dedupKeepFirst_sublist l).subset h

theorem dedupKeepFirst_cons (x : String) (l : List String) :
    ∃ s, dedupKeepFirst (x :: l) = x :: s ∧ List.Sublist s l := by
  unfold dedupKeepFirst
  rw [List.foldl_cons]
  have h0 : (if x ∉ ([] : List String) then ([] : List String) ++ [x] else []) = [x] := by
    simp
  rw [h0]
  obtain ⟨s, hs, hsub⟩ := foldl_keepFirst_sublist l [x]
  exact ⟨s, by rw [hs]; simp, hsub⟩

theorem scanCandidates_cons_skip (cands : List Candidate) (tl al href : String)
    (rest : List String)
    (hq : hrefBreaksXPath href = false)
    (hfind : cands.find? (fun x => x.href = href) = none) :
    scanCandidates cands tl al false (href :: rest)
      = scanCandidates cands tl al false rest := by
  rw [scanCandidates.eq_def]
  simp only [Bool.false_eq_true, if_false, hq, hfind]

theorem scanCandidates_cons_accept (cands : List Candidate) (tl al href : String)
    (rest : List String) (c : Candidate)
    (hq : hrefBreaksXPath href = false)
    (hfind : cands.find? (fun x => x.href = href) = some c) :
    scanCandidates cands tl al false (href :: rest) =
      if accepts tl al c = true then .found href
      else scanCandidates cands tl al false rest := by
  rw [scanCandidates.eq_def]
  simp only [Bool.false_eq_true, if_false, hq, hfind]
  unfold accepts
  by_cases ht : titleMatches tl c = true
  · rw [if_pos ht, ht, Bool.true_and]
    by_cases hal : al = ""
    · subst hal
      simp [authorOk]
    · rw [if_pos hal]
      cases hpt : c.parentText with
      | none => simp [authorOk, hpt, hal]
      | some pt => simp [authorOk, hpt, hal]
  · rw [if_neg ht]
    have ht2 : titleMatches tl c = false := by
      cases hbe : titleMatches tl c
      · rfl
      · exact absurd hbe ht
    rw [ht2, Bool.false_and]
    simp

theorem scanCandidates_all_fail (cands : List Candidate) (tl al : String)
    (links : List String)
    (hq : ∀ h ∈ links, hrefBreaksXPath h = false)
    (hf : ∀ h ∈ links, ∀ c, cands.find? (fun x => x.href = h) = some c →
      accepts tl al c = false) :
    scanCandidates cands tl al false links = .exhausted := by
  induction links with
  | nil => rfl
  | cons href rest ih =>
    have hq0 : hrefBreaksXPath href = false := hq href (List.mem_cons_self _ _)
    have step : scanCandidates cands tl al false rest = .exhausted :=
      ih (fun h hm => hq h (List.mem_cons_of_mem _ hm))
        (fun h hm => hf h (List.mem_cons_of_mem _ hm))
    cases hfind : cands.find? (fun x => x.href = href) with
    | none => rw [scanCandidates_cons_skip cands tl al href rest hq0 hfind]; exact step
    | some c =>
      rw [scanCandidates_cons_accept cands tl al href rest c hq0 hfind,
        hf href (List.mem_cons_self _ _) c hfind]
      simpa using step

theorem scanCandidates_prefix_found (cands : List Candidate) (tl al : String)
    (l1 : List String) (href : String) (l2 : List String) (c : Candidate)
    (hq1 : ∀ h ∈ l1, hrefBreaksXPath h = false)
    (hf1 : ∀ h ∈ l1, ∀ d, cands.find? (fun x => x.href = h) = some d →
      accepts tl al d = false)
    (hq : hrefBreaksXPath href = false)
    (hfind : cands.find? (fun x => x.href = href) = some c)
    (hacc : accepts tl al c = true) :
    scanCandidates cands tl al false (l1 ++ href :: l2) = .found href := by
  induction l1 with
  | nil =>
    rw [List.nil_append, scanCandidates_cons_accept cands tl al href l2 c hq hfind,
      if_pos hacc]
  | cons h0 t ih =>
    have hq0 : hrefBreaksXPath h0 = false := hq1 h0 (List.mem_cons_self _ _)
    have step : scanCandidates cands tl al false (t ++ href :: l2) = .found href :=
      ih (fun h hm => hq1 h (List.mem_cons_of_mem _ hm))
        (fun h hm => hf1 h (List.mem_cons_of_mem _ hm))
    rw [List.cons_append]
    cases hfind0 : cands.find? (fun x => x.href = h0) with
    | none => rw [scanCandidates_cons_skip cands tl al h0 _ hq0 hfind0]; exact step
    | some d =>
      rw [scanCandidates_cons_accept cands tl al h0 _ d hq0 hfind0,
        hf1 h0 (List.mem_cons_self _ _) d hfind0]
      simpa using step

theorem idFromUrlChars_base (l : List Char) :
    idFromUrlChars ("https://www.livelib.ru".toList ++ l) = idFromUrlChars l := by
  show idFromUrlChars
    ('h' :: 't' :: 't' :: 'p' :: 's' :: ':' :: '/' :: '/' :: 'w' :: 'w' :: 'w' :: '.' :: 'l' :: 'i' :: 'v' :: 'e' :: 'l' :: 'i' :: 'b' :: '.' :: 'r' :: 'u' :: l) = idFromUrlChars l
  simp [idFromUrlChars, List.isPrefixOf]

theorem idFromUrlChars_append_book (ds : List Char) (hne : ds ≠ [])
    (hd : ∀ c ∈ ds, c.isDigit) :
    idFromUrlChars ("/book/".toList ++ ds) = some ds := by
  show idFromUrlChars ('/' :: 'b' :: 'o' :: 'o' :: 'k' :: '/' :: ds) = some ds
  rw [idFromUrlChars.eq_def]
  have hpre : (String.toList "/book/").isPrefixOf ('/' :: 'b' :: 'o' :: 'o' :: 'k' :: '/' :: ds) = true := by
    rw [List.isPrefixOf_iff_prefix]
    exact List.prefix_append _ _
  simp only [hpre, if_true]
  have hdrop : (('/' :: 'b' :: 'o' :: 'o' :: 'k' :: '/' :: ds).drop 6) = ds := rfl
  rw [hdrop, List.takeWhile_eq_self_iff.mpr hd]
  simp [hne]

/-! ## Claim theorems -/

/-- Claim C1: for every detail-page input, the extraction core returns
no result exactly when the resolved title is empty or the resolved
authors list is empty, and every record it does return has a non-empty
title and at least one author. -/
theorem C1_required_fields (book_url : String) (p : Page) :
    (parse_book_page book_url p = none ↔ resolveTitle p = "" ∨ resolveAuthors p = []) ∧
    ∀ m, parse_book_page book_url p = some m → m.title ≠ "" ∧ m.authors ≠ [] := by
  by_cases h : resolveTitle p = "" ∨ resolveAuthors p = []
  · constructor
    · simp [parse_book_page, h]
    · intro m hm
      simp [parse_book_page, h] at hm
  · constructor
    · simp [parse_book_page, h]
    · intro m hm
      simp only [parse_book_page, if_neg h] at hm
      push_neg at h
      rw [Option.some_inj] at hm
      subst hm
      exact ⟨h.1, h.2⟩

/-- Witness for C1 at the concrete page `pageZero`. -/
theorem C1_witness :
    recZero.title ≠ "" ∧ recZero.authors ≠ [] :=
  (C1_required_fields "https://www.livelib.ru/book/1" pageZero).2 recZero rfl

/-- Counterexample to C2 as stated: on a two-candidate page whose first
candidate title-matches but fails the author-context check, the scan
does not stop there — the second candidate is considered and selected,
instead of the first-candidate fallback the claim predicts. -/
theorem C2_counterexample :
    titleMatches "t" cexC1 = true ∧
    authorOk "a" cexC1 = false ∧
    selectBestCandidate cexCands "t" "a" false = .url "https://www.livelib.ru/book/2" ∧
    MatchResult.url "https://www.livelib.ru/book/2" ≠ .url "https://www.livelib.ru/book/1" := by
  refine ⟨by decide, by decide, by decide, by decide⟩

/-- Claim C2 as amended: the scan stops at the first scanned candidate
that title-matches AND passes the author-context gate; candidates that
title-match but fail the author gate are skipped and scanning
continues. -/
theorem C2_first_passing (cands : List Candidate) (tl al : String)
    (l1 l2 : List String) (href : String) (c : Candidate)
    (hq : ∀ d ∈ cands, hrefBreaksXPath d.href = false)
    (hsplit : (dedupKeepFirst (cands.map (·.href))).take 20 = l1 ++ href :: l2)
    (hf1 : ∀ h ∈ l1, ∀ d, cands.find? (fun x => x.href = h) = some d →
      accepts tl al d = false)
    (hfind : cands.find? (fun x => x.href = href) = some c)
    (hacc : accepts tl al c = true)
    (hne : href ≠ "") :
    selectBestCandidate cands tl al false = .url (absolutize href) := by
  have hqh : ∀ h, h ∈ l1 ++ href :: l2 → hrefBreaksXPath h = false := by
    intro h hm
    have hmem : h ∈ dedupKeepFirst (cands.map (·.href)) :=
      List.take_subset _ _ (hsplit ▸ hm)
    obtain ⟨d, hd, hdh⟩ := List.mem_map.mp
      (mem_of_mem_dedupKeepFirst _ _ hmem)
    rw [← hdh]
    exact hq d hd
  have hscan : scanCandidates cands tl al false
      ((dedupKeepFirst (cands.map (·.href))).take 20) = .found href := by
    rw [hsplit]
    exact scanCandidates_prefix_found cands tl al l1 href l2 c
      (fun h hm => hqh h (List.mem_append_left _ hm)) hf1
      (hqh href (List.mem_append_right _ (List.mem_cons_self _ _)))
      hfind hacc
  cases hb : dedupKeepFirst (cands.map (·.href)) with
  | nil =>
    rw [hb] at hsplit
    simp at hsplit
  | cons first t =>
    rw [hb] at hscan
    simp only [selectBestCandidate, hb, hscan]
    rw [if_neg hne]

/-- Witness for the amended C2 on the two-candidate page. -/
theorem C2_witness :
    selectBestCandidate cexCands "t" "a" false = .url (absolutize "/book/2") := by
  refine C2_first_passing cexCands "t" "a" ["/book/1"] [] "/book/2" cexC2
    (by decide) (by decide) ?_ (by decide) (by decide) (by decide)
  intro h hm d hfind
  have hh : h = "/book/1" := List.mem_singleton.mp hm
  subst hh
  rw [show cexCands.find? (fun x => x.href = "/book/1") = some cexC1 from rfl] at hfind
  cases hfind
  exact (by decide : accepts "t" "a" cexC1 = false)

/-- Counterexample to C3 as stated: at source rating exactly 0 the
record carries no rating (`if rating:` is false for 0.0), not the
claimed 2·0. -/
theorem C3_counterexample :
    (parse_book_page "https://www.livelib.ru/book/1" pageZero).map (fun m => m.rating)
       = some none ∧
    (some (none : Option ℚ)) ≠ some (some ((2 : ℚ) * 0)) := by
  constructor
  · rfl
  · simp

/-- Claim C3 as amended: for a structured numeric rating r with
0 < r ≤ 5, the extracted record carries rating 2·r, which lies in
[0, 10]; at r = 0 the rating is omitted. -/
theorem C3_rating_scale (book_url : String) (p : Page) (j : StructuredData) (r : ℚ)
    (hj : p.jsonLd = some j)
    (hr : j.aggregateRating = RatingField.dict (some (RatingValue.num r)))
    (h0 : 0 < r) (h5 : r ≤ 5)
    (ht : resolveTitle p ≠ "") (ha : resolveAuthors p ≠ []) :
    (parse_book_page book_url p).map (fun m => m.rating) = some (some (2 * r)) ∧
    (0:ℚ) ≤ 2 * r ∧ 2 * r ≤ 10 := by
  refine ⟨?_, by linarith, by linarith⟩
  have h : ¬(resolveTitle p = "" ∨ resolveAuthors p = []) := by tauto
  rw [parse_book_page, if_neg h, Option.map_some']
  refine congrArg some ?_
  show (match (match p.jsonLd with
      | some j => structRating j.aggregateRating
      | none => none) with
    | some r => if r = 0 then none else some (2 * r)
    | none => none) = some (2 * r)
  rw [hj]
  show (match structRating j.aggregateRating with
    | some r => if r = 0 then none else some (2 * r)
    | none => none) = some (2 * r)
  rw [hr]
  show (if r = 0 then none else some (2 * r)) = some (2 * r)
  rw [if_neg (ne_of_gt h0)]

/-- Witness for the amended C3 at scenario A (rating 4.2 → 8.4). -/
theorem C3_witness :
    (parse_book_page "https://www.livelib.ru/book/12345" pageA).map (fun m => m.rating)
      = some (some (2 * (21/5 : ℚ))) ∧
    (0:ℚ) ≤ 2 * (21/5 : ℚ) ∧ 2 * (21/5 : ℚ) ≤ 10 :=
  C3_rating_scale "https://www.livelib.ru/book/12345" pageA sdA (21/5) rfl rfl
    (by norm_num) (by norm_num) (by decide) (by decide)

/-- Claim C4: for each of title, authors and genres, when the
structured block is absent or contributes nothing and the markup
fallback is non-empty, the field resolves to the markup fallback rather
than staying absent. -/
theorem C4_markup_fallback (p : Page) :
    (structTitleOf p = "" → ∀ h hs, p.h1 = h :: hs → pyStrip h ≠ "" →
      resolveTitle p = pyStrip h ∧ resolveTitle p ≠ "") ∧
    (structAuthorsOf p = [] → markupAuthors p ≠ [] →
      resolveAuthors p = markupAuthors p ∧ resolveAuthors p ≠ []) ∧
    (structGenresOf p = [] → markupGenres p ≠ [] →
      resolveGenres p = markupGenres p ∧ resolveGenres p ≠ []) := by
  refine ⟨?_, ?_, ?_⟩
  · intro ht h hs hh hne
    rw [resolveTitle, if_pos ht, hh]
    exact ⟨rfl, hne⟩
  · intro ha hne
    rw [resolveAuthors, if_pos ha]
    exact ⟨rfl, hne⟩
  · intro hg hne
    rw [resolveGenres, if_pos hg]
    exact ⟨rfl, hne⟩

/-- Witness for C4 on a page with no structured block and non-empty
markup for all three fields. -/
theorem C4_witness :
    (resolveTitle pageFall = pyStrip " Война и мир " ∧ resolveTitle pageFall ≠ "") ∧
    (resolveAuthors pageFall = markupAuthors pageFall ∧ resolveAuthors pageFall ≠ []) ∧
    (resolveGenres pageFall = markupGenres pageFall ∧ resolveGenres pageFall ≠ []) :=
  ⟨(C4_markup_fallback pageFall).1 rfl " Война и мир " [] rfl (by decide),
   (C4_markup_fallback pageFall).2.1 rfl (by decide),
   (C4_markup_fallback pageFall).2.2 rfl (by decide)⟩

/-- Claim C5: when no candidate is accepted by the scan (title-match
plus author gate), the selection falls back to the first candidate in
document order. -/
theorem C5_no_match_first (c0 : Candidate) (rest : List Candidate) (tl al : String)
    (hq : ∀ c ∈ c0 :: rest, hrefBreaksXPath c.href = false)
    (hfail : ∀ c ∈ c0 :: rest, accepts tl al c = false) :
    selectBestCandidate (c0 :: rest) tl al false = .url (absolutize c0.href) := by
  obtain ⟨s, hs, hsub⟩ := dedupKeepFirst_cons c0.href (rest.map (·.href))
  have hscan : scanCandidates (c0 :: rest) tl al false ((c0.href :: s).take 20)
      = .exhausted := by
    apply scanCandidates_all_fail
    · intro h hm
      have hmem : h ∈ dedupKeepFirst ((c0 :: rest).map (·.href)) := by
        rw [List.map_cons, hs]
        exact List.take_subset _ _ hm
      obtain ⟨d, hd, hdh⟩ := List.mem_map.mp
        (mem_of_mem_dedupKeepFirst _ _ hmem)
      rw [← hdh]
      exact hq d hd
    · intro h _ c hfind
      exact hfail c (List.mem_of_find?_eq_some hfind)
  simp only [selectBestCandidate, List.map_cons, hs, hscan]

/-- Witness for C5 on a two-candidate page where nothing matches. -/
theorem C5_witness :
    selectBestCandidate [⟨"/book/1", "xx", some "x"⟩, ⟨"/book/2", "yy", none⟩]
      "t" "a" false = .url (absolutize "/book/1") :=
  C5_no_match_first ⟨"/book/1", "xx", some "x"⟩ [⟨"/book/2", "yy", none⟩] "t" "a"
    (by decide) (by decide)

/-- Claim C6, failing input: a search page whose single book link holds
a double quote in its href makes the interpolated per-candidate XPath
lookup malformed, so `identify` raises `XPathEvalError` to its caller
instead of degrading to an empty result. -/
theorem C6_xpath_injection_raises :
    selectBestCandidate pageInject "t" "" false = .raisedXPath := by decide

/-- Claim C7: with no structured author data, the resolved authors list
is drawn only from the first 3 author links, stripped, with empties
dropped, de-duplicated, in first-seen order; scenario B evaluates to
["Лев Толстой", "А. Иванов"]. -/
theorem C7_author_cap_dedup (p : Page) (hld : structAuthorsOf p = []) :
    List.Sublist (resolveAuthors p) ((p.authorLinkTexts.take 3).map pyStrip) ∧
    (resolveAuthors p).Nodup ∧
    (∀ a, a ∈ resolveAuthors p ↔ a ∈ (p.authorLinkTexts.take 3).map pyStrip ∧ a ≠ "") ∧
    resolveAuthors pageB = ["Лев Толстой", "А. Иванов"] := by
  have hres : resolveAuthors p = markupAuthors p := by
    rw [resolveAuthors, if_pos hld]
  refine ⟨?_, ?_, ?_, by decide⟩
  · rw [hres, markupAuthors]
    obtain ⟨s, hs, hsub⟩ :=
      foldl_dedupAppend_sublist ((p.authorLinkTexts.take 3).map pyStrip) []
    rw [hs, List.nil_append]
    exact hsub
  · rw [hres, markupAuthors]
    exact foldl_dedupAppend_nodup _ _ List.nodup_nil
  · intro a
    rw [hres, markupAuthors, foldl_dedupAppend_mem]
    simp

/-- Witness for C7 at the scenario B page. -/
theorem C7_witness :
    (resolveAuthors pageB).Nodup ∧
    resolveAuthors pageB = ["Лев Толстой", "А. Иванов"] :=
  ⟨(C7_author_cap_dedup pageB rfl).2.1, (C7_author_cap_dedup pageB rfl).2.2.2⟩

/-- Counterexample to C8 as stated: when the first series link has
empty (whitespace-only) text, the series name is taken from a later
link, not from the first series link. -/
theorem C8_counterexample :
    resolveSeries [⟨"  ", some "#1"⟩, ⟨"Обитаемый остров", some "#2 в серии"⟩]
      = (some "Обитаемый остров", some 2) ∧
    pyStrip ("  " : String) = "" ∧
    some ("Обитаемый остров" : String) ≠ some ("" : String) := by
  refine ⟨by decide, by decide, by decide⟩

/-- Claim C8 as amended: the series name is the stripped text of the
first series link with non-empty stripped text; the index comes only
from that link's immediately-following sibling text via `#<digits>`,
and when that pattern is absent the index is omitted while the name is
retained. -/
theorem C8_series_first_nonempty (l1 : List SeriesLink) (l : SeriesLink)
    (l2 : List SeriesLink)
    (h1 : ∀ x ∈ l1, pyStrip x.text = "") (h2 : pyStrip l.text ≠ "") :
    resolveSeries (l1 ++ l :: l2) =
      (some (pyStrip l.text),
        match l.tail with
        | some s => if s = "" then none else findHash s.toList
        | none => none) ∧
    ((match l.tail with
      | some s => if s = "" then none else findHash s.toList
      | none => none) = (none : Option Nat) →
      resolveSeries (l1 ++ l :: l2) = (some (pyStrip l.text), none)) := by
  have hmain : resolveSeries (l1 ++ l :: l2) =
      (some (pyStrip l.text),
        match l.tail with
        | some s => if s = "" then none else findHash s.toList
        | none => none) := by
    induction l1 with
    | nil =>
      rw [List.nil_append, resolveSeries]
      rw [if_neg h2]
    | cons x t ih =>
      rw [List.cons_append, resolveSeries, if_pos (h1 x (List.mem_cons_self _ _))]
      exact ih (fun y hy => h1 y (List.mem_cons_of_mem _ hy))
  exact ⟨hmain, fun hn => by rw [hmain, hn]⟩

/-- Witness for the amended C8 at scenario C. -/
theorem C8_witness :
    resolveSeries [⟨"Обитаемый остров", some "#2 в серии"⟩]
      = (some "Обитаемый остров", some 2) := by
  have h := C8_series_first_nonempty [] ⟨"Обитаемый остров", some "#2 в серии"⟩ []
    (by intro x hx; cases hx) (by decide)
  exact h.1.trans (by decide)

/-- Counterexample to C9 as stated: for the identifier string "1a" the
round-trip yields "1", not "1a" (the URL regex captures only the digit
run). -/
theorem C9_counterexample :
    get_book_url (some "1a") = some "https://www.livelib.ru/book/1a" ∧
    id_from_url "https://www.livelib.ru/book/1a" = some "1" ∧
    some ("1" : String) ≠ some "1a" := by
  refine ⟨rfl, rfl, by decide⟩

/-- Claim C9 as amended: every non-empty all-digit identifier
round-trips through the canonical URL `<base>/book/<id>`. -/
theorem C9_roundtrip_digits (i : String) (h1 : i ≠ "")
    (h2 : ∀ c ∈ i.toList, c.isDigit) :
    get_book_url (some i) = some (BASE_URL ++ "/book/" ++ i) ∧
    id_from_url (BASE_URL ++ "/book/" ++ i) = some i := by
  constructor
  · simp [get_book_url, h1]
  · unfold id_from_url
    have htl : (BASE_URL ++ "/book/" ++ i).toList
        = "https://www.livelib.ru".toList ++ ("/book/".toList ++ i.toList) := by
      rw [toList_append, toList_append, List.append_assoc]
      rfl
    have hne : i.toList ≠ [] := fun h => h1 (by rw [← mk_toList i, h])
    rw [htl, idFromUrlChars_base, idFromUrlChars_append_book i.toList hne h2]
    show some (String.mk i.toList) = some i
    rw [mk_toList]

/-- Witness for the amended C9 at identifier "12345". -/
theorem C9_witness :
    get_book_url (some "12345") = some (BASE_URL ++ "/book/" ++ "12345") ∧
    id_from_url (BASE_URL ++ "/book/" ++ "12345") = some "12345" :=
  C9_roundtrip_digits "12345" (by decide) (by decide)

/-- Claim C10: with no livelib identifier, `download_cover` performs no
network fetch and emits nothing, regardless of title, authors, cache
contents and fetch behaviour. -/
theorem C10_no_livelib_no_fetch (title : Option String) (authors : List String)
    (cache : String → Option String)
    (fetchJsonLd : String → Option StructuredData)
    (fetchImage : String → Option (List Nat)) :
    download_cover title authors none cache fetchJsonLd fetchImage = ([], none) := by
  simp [download_cover, optTruthy]

end Livelib
